import Mathlib

/-!
Verification development for the elmobd OBD-II diagnostics library.

The Go sources are shallowly embedded:
* Go strings are `List Char` (`Str`); Go byte slices are `List Nat` whose
  entries are below 256 (stated as hypotheses where it matters).
* Machine integers are `Nat` with explicit `% 2 ^ w` at every point where
  the Go code performs wrapping arithmetic (byte and uint32 additions,
  subtractions and multiplications, uint64 shifts).
* Fallible Go functions returning `(T, error)` become `Except` /
  `Option`-valued Lean functions.
* Float-valued decodes are embedded exactly where the arithmetic is exact
  (timing advance: an integer in [-64, 63]) and as rationals otherwise
  (fuel trim), since the decoded magnitudes are far below the float32
  precision loss threshold for the properties considered here.
-/

deriving instance DecidableEq for Except

namespace Elmobd

/-- Go strings, embedded as lists of characters. -/
abbrev Str := List Char

/-- The numeric value of one hex digit, as accepted by Go's
`strconv.ParseUint(s, 16, 8)`: `0-9`, `a-f`, `A-F`. -/
def hexDigitVal? (c : Char) : Option Nat :=
  if '0' ≤ c ∧ c ≤ '9' then some (c.toNat - 48)
  else if 'a' ≤ c ∧ c ≤ 'f' then some (c.toNat - 87)
  else if 'A' ≤ c ∧ c ≤ 'F' then some (c.toNat - 55)
  else none

/-- Accumulating hex evaluation of a character list (the digit loop inside
Go's `strconv.ParseUint` with base 16). -/
def hexValAcc : Str → Nat → Option Nat
  | [], acc => some acc
  | c :: rest, acc =>
    match hexDigitVal? c with
    | none => none
    | some d => hexValAcc rest (16 * acc + d)

/-- Embedding of Go `strconv.ParseUint(s, 16, 8)`: fails on the empty
string, on any non-hex-digit character, and on values exceeding 8 bits. -/
def parseUintHex8 (s : Str) : Option Nat :=
  match s with
  | [] => none
  | _ =>
    match hexValAcc s 0 with
    | none => none
    | some v => if v ≤ 255 then some v else none

/-- The reassembly loop shared by `BytesToUint64` and
`Result.payloadAsUInt` (src/utils.go lines 17-21, src/device.go lines
119-123): `res |= uint64(bytes[amount-(i+1)]) << uint(i*8)` for
`i = 0 .. amount-1`.  The uint64 shift wraps modulo `2 ^ 64`. -/
def uintLoop (bytes : List Nat) : Nat :=
  (List.range bytes.length).foldl
    (fun res i => res ||| ((bytes.getD (bytes.length - (i + 1)) 0 <<< (i * 8)) % 2 ^ 64)) 0

/-- Embedding of `BytesToUint64` (src/utils.go lines 8-24): errors when
given more than 8 bytes, otherwise reassembles big-endian. -/
def BytesToUint64 (bytes : List Nat) : Except String Nat :=
  if bytes.length > 8 then .error "Got more than 8 bytes"
  else .ok (uintLoop bytes)

/-- Embedding of `HexLitsToBytes` (src/utils.go lines 26-48): every
literal whose length is not exactly 2 is skipped by `continue`; a
2-character literal is parsed with `strconv.ParseUint(lit, 16, 8)` and a
parse failure aborts the whole call. -/
def HexLitsToBytes : List Str → Except String (List Nat)
  | [] => .ok []
  | lit :: rest =>
    if lit.length ≠ 2 then HexLitsToBytes rest
    else
      match parseUintHex8 lit with
      | none => .error "invalid hex literal"
      | some b => (HexLitsToBytes rest).map (fun bs => b :: bs)

/-- Big-endian value of a byte list (the specification-side reassembly:
most significant byte first, no sign extension). -/
def beVal (bytes : List Nat) : Nat :=
  bytes.foldl (fun acc b => acc * 256 + b) 0

/-! ### Frame transport (src/unnamed/part_000) -/

/-- Splitting a Go string around every occurrence of a one-character
separator (`strings.Split(s, "\r")`, `strings.Split(s, " ")`).  Always
returns at least one (possibly empty) piece, like Go. -/
def splitChar (sep : Char) : Str → List Str
  | [] => [[]]
  | c :: rest =>
    match splitChar sep rest with
    | [] => [[c]]
    | h :: t => if c = sep then [] :: h :: t else (c :: h) :: t

/-- The cutset predicate of `strings.Trim(part, "\r ")`. -/
def isTrimmed (c : Char) : Bool :=
  c == '\r' || c == ' '

/-- Embedding of `strings.Trim(s, "\r ")`: removes leading and trailing
characters belonging to the cutset. -/
def trimCutset (s : Str) : Str :=
  ((s.dropWhile isTrimmed).reverse.dropWhile isTrimmed).reverse

/-- Transport-level failures of `RealDevice.processResult`
(src/unnamed/part_000 lines 281-316). -/
inductive TransportError where
  | echoMismatch (input first : Str)
  | noPayload
deriving DecidableEq

/-- Embedding of `RealDevice.processResult` (src/unnamed/part_000 lines
281-316).  `buffer` is the accumulated read buffer with the prompt byte
already stripped, `input` the command string recorded by the last
successful write.  Splits on carriage return, demands the first line
equal the written command, trims the remaining lines, drops empties, and
requires at least one payload line. -/
def processResult (input : Str) (buffer : Str) : Except TransportError (List Str) :=
  match splitChar '\r' buffer with
  | [] => .error .noPayload
  | first :: rest =>
    if first ≠ input then .error (.echoMismatch input first)
    else
      let trimmedParts := (rest.map trimCutset).filter (fun p => p ≠ [])
      if trimmedParts.length < 1 then .error .noPayload
      else .ok trimmedParts

/-- The three transport states of `RealDevice` (src/unnamed/part_000
lines 232-238). -/
inductive DeviceState where
  | deviceReady
  | deviceBusy
  | deviceError
deriving DecidableEq

/-- One exchange performed by the transport: `RealDevice.RunCommand`
(`isReset = false`) or `RealDevice.Reset` (`isReset = true`), together
with whether every step of it succeeded. -/
structure ExchangeOp where
  isReset : Bool
  ok : Bool
deriving DecidableEq

/-- The sequence of values assigned to `dev.state` during one exchange:
both `RunCommand` and `Reset` set `deviceBusy` on entry
(src/unnamed/part_000 lines 119 and 190) and, at the `out` label, set
`deviceError` when an error occurred and `deviceReady` otherwise (lines
151-156 and 212-217).  The prior state is never read by the code. -/
def opStateWrites (op : ExchangeOp) : List DeviceState :=
  [DeviceState.deviceBusy,
   if op.ok then DeviceState.deviceReady else DeviceState.deviceError]

/-- The transport state after running one exchange from state `s`
(the last write of `opStateWrites`; `s` itself is never consulted by the
source). -/
def applyOp (s : DeviceState) (op : ExchangeOp) : DeviceState :=
  if op.ok then DeviceState.deviceReady else DeviceState.deviceError

/-! ### Command descriptors and response frames (src/device.go, src/unnamed/part_002) -/

/-- Embedding of `baseCommand` (src/unnamed/part_002 lines 32-37): mode
id, parameter id and data width are Go bytes, `key` a stable name. -/
structure Cmd where
  modeId : Nat
  parameterID : Nat
  dataWidth : Nat
  key : String
deriving DecidableEq

/-- Embedding of `Result` (src/device.go lines 28-30): the bytes parsed
from one response line. -/
structure Result where
  value : List Nat
deriving DecidableEq

/-- The failures of `Result.Validate` (src/device.go lines 66-97).
`outOfBounds` marks the Go runtime panic that a wrapped expected length
below 2 would trigger at `res.value[0]` / `res.value[1]`. -/
inductive ValidationError where
  | lengthMismatch (expected found : Nat)
  | modeMismatch (expected found : Nat)
  | parameterMismatch (expected found : Nat)
  | outOfBounds
deriving DecidableEq

/-- Embedding of `Result.Validate` (src/device.go lines 66-97).  The
expected length `cmd.DataWidth() + 2` and the mode echo
`cmd.ModeID() + 0x40` are Go byte additions, hence the `% 256`. -/
def Result.Validate (res : Result) (cmd : Cmd) : Except ValidationError Unit :=
  let valueLen := res.value.length
  let expLen := (cmd.dataWidth + 2) % 256
  if valueLen ≠ expLen then .error (.lengthMismatch expLen valueLen)
  else
    let modeResp := (cmd.modeId + 0x40) % 256
    match res.value with
    | [] => .error .outOfBounds
    | v0 :: tail =>
      if v0 ≠ modeResp then .error (.modeMismatch modeResp v0)
      else
        match tail with
        | [] => .error .outOfBounds
        | v1 :: _ =>
          if v1 ≠ cmd.parameterID then .error (.parameterMismatch cmd.parameterID v1)
          else .ok ()

/-- Embedding of `Result.payloadAsUInt` (src/device.go lines 107-126):
checks that the payload `value[2:]` has exactly the expected width, then
reassembles it with the same loop as `BytesToUint64`. -/
def Result.payloadAsUInt (res : Result) (expAmount : Nat) : Except String Nat :=
  let payload := res.value.drop 2
  if payload.length ≠ expAmount then .error "unexpected payload width"
  else .ok (uintLoop payload)

/-- Embedding of `Result.PayloadAsByte` (src/device.go lines 162-170);
the final `uint8` cast wraps modulo 256. -/
def Result.PayloadAsByte (res : Result) : Except String Nat :=
  (res.payloadAsUInt 1).map (fun v => v % 256)

/-- Embedding of `Result.PayloadAsUInt32` (src/device.go lines 140-148);
the final `uint32` cast wraps modulo `2 ^ 32`. -/
def Result.PayloadAsUInt32 (res : Result) : Except String Nat :=
  (res.payloadAsUInt 4).map (fun v => v % 2 ^ 32)

/-! ### Per-command payload decodes (src/unnamed/part_002) -/

/-- Embedding of `TimingAdvance.SetValue` (src/unnamed/part_002 lines
746-756): `cmd.Value = float32(payload/2) - 64`.  `payload` is a Go byte
and `payload/2` a truncating byte division performed before the float
conversion, so the stored float is always the integer `payload/2 - 64`
and is represented here exactly as an `Int`.  Returns the new value and
an optional error; on error the value is returned unchanged. -/
def timingAdvanceSetValue (value : Int) (res : Result) : Int × Option String :=
  match res.PayloadAsByte with
  | .error e => (value, some e)
  | .ok payload => (((payload / 2 : Nat) : Int) - 64, none)

/-- Embedding of `fuelTrim.SetValue` (src/unnamed/part_002 lines
526-536): `cmd.Value = (float32(payload) / 1.28) - 100`, embedded over
exact rationals.  Returns the new value and an optional error; on error
the value is returned unchanged. -/
def fuelTrimSetValue (value : ℚ) (res : Result) : ℚ × Option String :=
  match res.PayloadAsByte with
  | .error e => (value, some e)
  | .ok payload => ((payload : ℚ) / (32 / 25 : ℚ) - 100, none)

/-! ### Capability bitmap (src/unnamed/part_002 lines 136-285) -/

/-- Embedding of `PartSupported`: descriptor, 32-bit value and part
index (a Go byte). -/
structure PartSupported where
  base : Cmd
  value : Nat
  index : Nat
deriving DecidableEq

/-- Embedding of `NewPartSupported` (src/unnamed/part_002 lines
146-160): clamps the index into [1,7] and builds the descriptor with
`pid = (index-1)*PartRange` (byte arithmetic), data width 4, mode 0x01,
and a zero initial value. -/
def NewPartSupported (index : Nat) : PartSupported :=
  let i := if index < 1 then 1 else if index > 7 then 7 else index
  { base :=
      { modeId := 1
        parameterID := ((i - 1) * 32) % 256
        dataWidth := 4
        key := "supported_commands_part" ++ toString i }
    value := 0
    index := i }

/-- Embedding of `PartSupported.SetRawValue` (src/unnamed/part_002 lines
177-179); the argument is a Go uint32. -/
def PartSupported.SetRawValue (part : PartSupported) (val : Nat) : PartSupported :=
  { part with value := val % 2 ^ 32 }

/-- Embedding of `PartSupported.PIDInRange` (src/unnamed/part_002 lines
187-192).  `endPID`, `startPID` and the compared PID are Go bytes:
`endPID := OBDParameterID(part.index * PartRange)` wraps modulo 256, and
`startPID := OBDParameterID(endPID-PartRange) + 1` uses wrapping byte
subtraction and addition. -/
def PartSupported.PIDInRange (part : PartSupported) (comparePID : Nat) : Bool :=
  let endPID := part.index * 32 % 256
  let startPID := ((endPID + 256 - 32) % 256 + 1) % 256
  decide (startPID ≤ comparePID) && decide (comparePID ≤ endPID)

/-- Embedding of `PartSupported.SupportsPID` (src/unnamed/part_002 lines
254-264).  `offset := uint32(32 * part.index)` multiplies in byte
arithmetic before widening, and `bitsToShift := offset - uint32(pid)` is
a wrapping uint32 subtraction. -/
def PartSupported.SupportsPID (part : PartSupported) (comparePID : Nat) : Bool :=
  if !(part.PIDInRange comparePID) then false
  else
    let offset := 32 * part.index % 256
    let bitsToShift := (offset + 2 ^ 32 - comparePID % 2 ^ 32) % 2 ^ 32
    decide ((part.value >>> bitsToShift) &&& 1 = 1)

/-- Embedding of `PartSupported.SupportsNextPart` (src/unnamed/part_002
lines 269-273): tests the least-significant bit of the part's value. -/
def PartSupported.SupportsNextPart (part : PartSupported) : Bool :=
  decide (part.value &&& 1 = 1)

/-- Embedding of the `Device.CheckSupportedCommands` loop (src/device.go
lines 304-330), instrumented with the sequence of part indices it
queries.  `respond index` is the uint32 value the car reports for the
queried part (every exchange assumed to decode successfully), `fuel`
bounds the number of iterations observed.  Faithful to the source, the
loop body builds `NewPartSupported index`, queries it, and breaks when
`SupportsNextPart` is false; the source never modifies `index` and has
no other exit.  Returns the indices queried and whether the loop
terminated within `fuel` iterations. -/
def CheckSupportedQueries (respond : Nat → Nat) : Nat → Nat → List Nat × Bool
  | 0, _ => ([], false)
  | fuel + 1, index =>
    let part := (NewPartSupported index).SetRawValue (respond index)
    if part.SupportsNextPart then
      let rest := CheckSupportedQueries respond fuel index
      (index :: rest.1, rest.2)
    else ([index], true)

/-! ### Device orchestrator (src/device.go lines 334-364, 492-520) -/

/-- The failures of `parseOBDResponse` and `NewResult` (src/device.go
lines 34-60 and 492-520). -/
inductive ParseError where
  | unableToConnect
  | noData
  | tooFewLiterals
  | invalidHexLiteral
deriving DecidableEq

/-- The token-parsing loop of `NewResult` (src/device.go lines 45-57):
each space-separated literal must parse with
`strconv.ParseUint(lit, 16, 8)`. -/
def parseAllLiterals : List Str → Except ParseError (List Nat)
  | [] => .ok []
  | lit :: rest =>
    match parseUintHex8 lit with
    | none => .error .invalidHexLiteral
    | some b => (parseAllLiterals rest).map (fun bs => b :: bs)

/-- Embedding of `NewResult` (src/device.go lines 34-60): split the raw
line on spaces, require at least 3 literals, hex-decode each. -/
def NewResult (rawLine : Str) : Except ParseError Result :=
  let literals := splitChar ' ' rawLine
  if literals.length < 3 then .error .tooFewLiterals
  else (parseAllLiterals literals).map Result.mk

/-- The line-scanning loop of `parseOBDResponse` (src/device.go lines
495-513): error lines abort, transient lines are skipped, and the first
remaining line is the payload (empty if the outputs run out). -/
def findPayload : List Str → Except ParseError Str
  | [] => .ok []
  | out :: rest =>
    if "UNABLE TO CONNECT".data.isPrefixOf out then .error .unableToConnect
    else if "NO DATA".data.isPrefixOf out then .error .noData
    else if "SEARCHING".data.isPrefixOf out then findPayload rest
    else if "BUS INIT".data.isPrefixOf out then findPayload rest
    else .ok out

/-- Embedding of `parseOBDResponse` (src/device.go lines 492-520): an
empty payload yields `none` (no frame, no error), otherwise the payload
is parsed with `NewResult`. -/
def parseOBDResponse (cmd : Cmd) (outputs : List Str) : Except ParseError (Option Result) :=
  match findPayload outputs with
  | .error e => .error e
  | .ok payload =>
    if payload = [] then .ok none
    else (NewResult payload).map some

/-- The raw transport result consumed by `Device.RunOBDCommand`: whether
the exchange failed and the response lines it produced. -/
structure RawRes where
  failed : Bool
  outputs : List Str
deriving DecidableEq

/-- A polymorphic OBD command: descriptor plus current decoded value
(`baseCommand` embedded together with its value holder). -/
structure ObdCmd (α : Type) where
  base : Cmd
  value : α
deriving DecidableEq

/-- The error alternatives surfaced by `Device.RunOBDCommand`. -/
inductive RunError where
  | transport
  | parseFailed (e : ParseError)
  | validationFailed (e : ValidationError)
  | decodeFailed (msg : String)
deriving DecidableEq

/-- Embedding of `Device.RunOBDCommand` (src/device.go lines 334-364).
`setValue` is the command's payload decode, returning the new value and
an optional error (Go mutates `cmd` in place and returns `cmd, err`).
Every failing step returns the command alongside the error. -/
def RunOBDCommand {α : Type} (setValue : α → Result → α × Option String)
    (raw : RawRes) (cmd : ObdCmd α) : ObdCmd α × Option RunError :=
  if raw.failed then (cmd, some .transport)
  else
    match parseOBDResponse cmd.base raw.outputs with
    | .error e => (cmd, some (.parseFailed e))
    | .ok none => (cmd, none)
    | .ok (some result) =>
      match result.Validate cmd.base with
      | .error e => (cmd, some (.validationFailed e))
      | .ok _ =>
        match setValue cmd.value result with
        | (v, some msg) => ({ cmd with value := v }, some (.decodeFailed msg))
        | (v, none) => ({ cmd with value := v }, none)

/-! ## Shared helper lemmas -/

/-- The bit test performed by `SupportsPID` agrees with `Nat.testBit`. -/
lemma decide_shiftRight_and_one (x k : Nat) :
    decide ((x >>> k) &&& 1 = 1) = x.testBit k := by
  simp [Nat.testBit_to_div_mod, Nat.and_one_is_mod, Nat.shiftRight_eq_div_pow]

/-- Oring a multiple of `2 ^ k` with a value below `2 ^ k` is addition. -/
lemma lor_two_pow_mul (k : Nat) : ∀ a b : Nat, b < 2 ^ k → a * 2 ^ k ||| b = a * 2 ^ k + b := by
  induction k with
  | zero =>
    intro a b hb
    interval_cases b
    simp
  | succ k ih =>
    intro a b hb
    have hq : b / 2 < 2 ^ k := by
      rw [pow_succ] at hb
      omega
    have h1 : a * 2 ^ (k + 1) = Nat.bit false (a * 2 ^ k) := by
      simp [Nat.bit_val]
      ring
    have h2 : b = Nat.bit (decide (b % 2 = 1)) (b / 2) := by
      rcases Nat.mod_two_eq_zero_or_one b with h | h <;> simp [Nat.bit_val, h] <;> omega
    rw [h1, h2, Nat.lor_bit, ih a (b / 2) hq]
    simp only [Bool.false_or, Nat.bit_val]
    rcases Nat.mod_two_eq_zero_or_one b with h | h <;> simp [h] <;> ring_nf

/-- Unrolling the reassembly loop by its most significant byte. -/
lemma uintLoop_cons (a : Nat) (t : List Nat) :
    uintLoop (a :: t) = uintLoop t ||| ((a <<< (t.length * 8)) % 2 ^ 64) := by
  unfold uintLoop
  simp only [List.length_cons, List.range_succ, List.foldl_append, List.foldl_cons,
    List.foldl_nil]
  congr 1
  · apply List.foldl_ext
    intro acc i hi
    have hi' : i < t.length := List.mem_range.mp hi
    have h2 : t.length + 1 - (i + 1) = (t.length - (i + 1)) + 1 := by omega
    rw [h2, List.getD_cons_succ]
  · simp

/-- Folding the big-endian accumulator from an arbitrary start value. -/
lemma beVal_foldl (t : List Nat) : ∀ init : Nat,
    t.foldl (fun acc b => acc * 256 + b) init = init * 256 ^ t.length + beVal t := by
  induction t with
  | nil => intro init; simp [beVal]
  | cons b t ih =>
    intro init
    simp only [List.foldl_cons, List.length_cons, beVal]
    rw [ih (init * 256 + b), show (t.foldl (fun acc b => acc * 256 + b) (0 * 256 + b)) =
      b * 256 ^ t.length + beVal t by rw [ih (0 * 256 + b)]; ring]
    ring

/-- Big-endian value of a cons cell. -/
lemma beVal_cons (b : Nat) (t : List Nat) :
    beVal (b :: t) = b * 256 ^ t.length + beVal t := by
  show (b :: t).foldl (fun acc b => acc * 256 + b) 0 = _
  simp only [List.foldl_cons]
  rw [beVal_foldl]
  ring

/-- Bound on the big-endian value of a byte list. -/
lemma beVal_lt (t : List Nat) (h : ∀ b ∈ t, b < 256) : beVal t < 256 ^ t.length := by
  induction t with
  | nil => simp [beVal]
  | cons b t ih =>
    rw [beVal_cons]
    have hb : b < 256 := h b (by simp)
    have ht : beVal t < 256 ^ t.length := ih (fun x hx => h x (by simp [hx]))
    have h1 : b * 256 ^ t.length + beVal t < (b + 1) * 256 ^ t.length := by
      have := Nat.two_pow_pos t.length
      nlinarith [ht]
    have h2 : (b + 1) * 256 ^ t.length ≤ 256 * 256 ^ t.length :=
      Nat.mul_le_mul_right _ (by omega)
    calc b * 256 ^ t.length + beVal t < (b + 1) * 256 ^ t.length := h1
      _ ≤ 256 * 256 ^ t.length := h2
      _ = 256 ^ (b :: t).length := by rw [List.length_cons, pow_succ]; ring

/-- On byte lists of length at most 8, the wrapped or-shift loop computes
the exact big-endian value. -/
lemma uintLoop_be (l : List Nat) (h : ∀ b ∈ l, b < 256) (hlen : l.length ≤ 8) :
    uintLoop l = beVal l := by
  induction l with
  | nil => simp [uintLoop, beVal]
  | cons a t ih =>
    have ha : a < 256 := h a (by simp)
    have ht8 : t.length ≤ 7 := by
      simp only [List.length_cons] at hlen
      omega
    have hpow : (256 : Nat) ^ t.length = 2 ^ (t.length * 8) := by
      rw [show (256 : Nat) = 2 ^ 8 by norm_num, ← pow_mul, Nat.mul_comm]
    have hlt64 : a * 2 ^ (t.length * 8) < 2 ^ 64 := by
      calc a * 2 ^ (t.length * 8) < 256 * 2 ^ (t.length * 8) :=
            Nat.mul_lt_mul_of_lt_of_le ha (le_refl _) (Nat.two_pow_pos _)
        _ = 2 ^ (8 + t.length * 8) := by rw [pow_add]; norm_num
        _ ≤ 2 ^ 64 := Nat.pow_le_pow_right (by norm_num) (by omega)
    have hb : beVal t < 2 ^ (t.length * 8) := by
      rw [← hpow]
      exact beVal_lt t (fun x hx => h x (by simp [hx]))
    rw [uintLoop_cons, ih (fun x hx => h x (by simp [hx])) (by omega), Nat.shiftLeft_eq,
      Nat.mod_eq_of_lt hlt64, Nat.lor_comm, lor_two_pow_mul _ a (beVal t) hb, beVal_cons,
      hpow]

/-- `fuelTrim.SetValue` (src/unnamed/part_002 lines 526-536) leaves the
command value untouched whenever it reports an error: the only mutation
happens after `PayloadAsByte` has succeeded. -/
lemma fuelTrimSetValue_errorPreserves (v : ℚ) (r : Result)
    (h : (fuelTrimSetValue v r).2.isSome = true) : (fuelTrimSetValue v r).1 = v := by
  unfold fuelTrimSetValue at h ⊢
  cases hr : r.PayloadAsByte <;> simp [hr] at h ⊢

/-! ## Claim theorems -/

/-- Claim C1.  The capability-discovery loop of
`Device.CheckSupportedCommands` (src/device.go lines 304-330) starts at
part index 1 but never advances: the source neither increments `index`
nor stops at index 7, so whenever the decoded part has its
supports-next-part bit set (value 0xBE1FA813, the canonical part-1
bitmask, is odd) every iteration queries part index 1 again and the loop
never terminates.  The claim instead requires the second query to be
index 2 and termination by index 7. -/
theorem checkSupported_never_advances :
    CheckSupportedQueries (fun _ => 0xBE1FA813) 3 1 = ([1, 1, 1], false)
    ∧ ∀ fuel, CheckSupportedQueries (fun _ => 0xBE1FA813) fuel 1
        = (List.replicate fuel 1, false) := by
  have hnext : ((NewPartSupported 1).SetRawValue 0xBE1FA813).SupportsNextPart = true := by
    decide
  refine ⟨by decide, ?_⟩
  intro fuel
  induction fuel with
  | zero => simp [CheckSupportedQueries]
  | succ n ih => simp [CheckSupportedQueries, hnext, ih, List.replicate_succ]

/-- Claim C3, counterexample.  The transport error state is not sticky:
the state is never read by the source, so a successful `RunCommand`
(not a reset) started in `deviceError` ends in `deviceReady`
(src/unnamed/part_000 lines 190, 212-217). -/
theorem deviceError_cleared_by_successful_runCommand :
    applyOp DeviceState.deviceError { isReset := false, ok := true } = DeviceState.deviceReady
    ∧ ({ isReset := false, ok := true } : ExchangeOp).isReset = false := by
  exact ⟨rfl, rfl⟩

/-- Claim C3, amended.  Every exchange (`RunCommand` or `Reset`) writes
`deviceBusy` on entry, then `deviceReady` on clean completion and
`deviceError` on any failure, regardless of the previous state; the
error state therefore persists across failed exchanges but is cleared by
the next successful one, whether or not it is a reset. -/
theorem deviceState_transitions (s : DeviceState) (op : ExchangeOp) :
    opStateWrites op = [DeviceState.deviceBusy, applyOp s op]
    ∧ (applyOp s op = DeviceState.deviceReady ↔ op.ok = true)
    ∧ (applyOp s op = DeviceState.deviceError ↔ op.ok = false)
    ∧ applyOp s op ≠ DeviceState.deviceBusy := by
  cases hok : op.ok <;> simp [opStateWrites, applyOp, hok]

/-- Claim C8.  `TimingAdvance.SetValue` (src/unnamed/part_002 lines
746-756) stores `(b / 2) - 64` where `b / 2` is truncating byte
division performed before the subtraction, so every odd payload byte
decodes to the same value as the even byte below it. -/
theorem timingAdvance_truncates (v : Int) (m p b : Nat) (hb : b < 256) :
    timingAdvanceSetValue v ⟨[m, p, b]⟩ = (((b / 2 : Nat) : Int) - 64, none)
    ∧ (b % 2 = 1 →
        timingAdvanceSetValue v ⟨[m, p, b]⟩ = timingAdvanceSetValue v ⟨[m, p, b - 1]⟩) := by
  have hloop : ∀ c : Nat, c < 256 → uintLoop [c] = c := by
    intro c hc
    have h1 : (c <<< 0) % 2 ^ 64 = c := by
      rw [Nat.shiftLeft_zero, Nat.mod_eq_of_lt (lt_of_lt_of_le hc (by norm_num))]
    simp [uintLoop, List.range_succ, h1]
    omega
  have hpb : ∀ c : Nat, c < 256 → (Result.mk [m, p, c]).PayloadAsByte = .ok c := by
    intro c hc
    simp [Result.PayloadAsByte, Result.payloadAsUInt, hloop c hc, Except.map,
      Nat.mod_eq_of_lt hc]
  constructor
  · simp [timingAdvanceSetValue, hpb b hb]
  · intro hodd
    have hdiv : b / 2 = (b - 1) / 2 := by omega
    simp [timingAdvanceSetValue, hpb b hb, hpb (b - 1) (by omega), hdiv]

/-- Claim C8, witness: payload byte 0x81 decodes to the same timing
advance as payload byte 0x80 (both 0 degrees). -/
theorem timingAdvance_truncates_witness :
    timingAdvanceSetValue 0 ⟨[0x41, 0x0E, 0x81]⟩ = timingAdvanceSetValue 0 ⟨[0x41, 0x0E, 0x80]⟩ := by
  have h := timingAdvance_truncates 0 0x41 0x0E 0x81 (by decide)
  exact h.2 (by decide)

/-- Claim C10.  `NewPartSupported` (src/unnamed/part_002 lines 146-160)
clamps its byte argument into [1,7] and builds the descriptor with
parameter id `(index-1)*32`, data width 4 and mode 0x01, so no part with
an index outside 1..7 is ever constructed. -/
theorem newPartSupported_clamps (b : Nat) (hb : b ≤ 255) :
    (1 ≤ (NewPartSupported b).index ∧ (NewPartSupported b).index ≤ 7)
    ∧ (b < 1 → (NewPartSupported b).index = 1)
    ∧ (7 < b → (NewPartSupported b).index = 7)
    ∧ (1 ≤ b → b ≤ 7 → (NewPartSupported b).index = b)
    ∧ (NewPartSupported b).base.parameterID = ((NewPartSupported b).index - 1) * 32
    ∧ (NewPartSupported b).base.dataWidth = 4
    ∧ (NewPartSupported b).base.modeId = 1 := by
  simp only [NewPartSupported]
  by_cases h1 : b < 1 <;> by_cases h7 : b > 7 <;>
    simp [h1, h7] <;> omega

/-- Claim C10, witness: index 9 is clamped down to 7. -/
theorem newPartSupported_clamps_witness : (NewPartSupported 9).index = 7 := by
  exact (newPartSupported_clamps 9 (by decide)).2.2.1 (by decide)

/-- Claim C2, counterexample.  With the part-1 value 0xBE1FA813 the code
reports PID 0x0C (engine RPM) as supported — bit `32*1 - 0x0C = 20` of
0xBE1FA813 is set — but 0x0C is missing from the claim's supported set,
whose every other in-range PID the claim declares unsupported. -/
theorem supportsPID_includes_0x0C :
    ((NewPartSupported 1).SetRawValue 0xBE1FA813).SupportsPID 0x0C = true
    ∧ (0x0C : Nat) ∉ ([0x01, 0x03, 0x04, 0x05, 0x06, 0x07, 0x0D, 0x0E, 0x0F,
        0x10, 0x11, 0x13, 0x15, 0x1C, 0x1F, 0x20] : List Nat) := by
  decide

set_option maxRecDepth 8000 in
/-- Claim C2, amended.  For every part index in 1..7 and every PID byte,
`SupportsPID` returns false outside `[(i-1)*32+1, i*32]` and otherwise
tests bit `32*i - pid` (MSB-first) of the 32-bit value; the part-1 value
0xBE1FA813 yields exactly the supported set
{0x01,0x03,0x04,0x05,0x06,0x07,0x0C,0x0D,0x0E,0x0F,0x10,0x11,0x13,0x15,
0x1C,0x1F,0x20} — the claim's set with 0x0C added — with every other PID
in [0x01,0x20] unsupported. -/
theorem supportsPID_spec (idx val pid : Nat) (h1 : 1 ≤ idx) (h7 : idx ≤ 7)
    (hpid : pid ≤ 255) :
    (((NewPartSupported idx).SetRawValue val).SupportsPID pid
        = ((decide ((idx - 1) * 32 + 1 ≤ pid) && decide (pid ≤ idx * 32))
            && (val % 2 ^ 32).testBit (idx * 32 - pid)))
    ∧ (∀ q, q ≤ 255 →
        (((NewPartSupported 1).SetRawValue 0xBE1FA813).SupportsPID q = true ↔
          q ∈ ([0x01, 0x03, 0x04, 0x05, 0x06, 0x07, 0x0C, 0x0D, 0x0E, 0x0F,
                0x10, 0x11, 0x13, 0x15, 0x1C, 0x1F, 0x20] : List Nat))) := by
  constructor
  · have hlt : ¬ idx < 1 := by omega
    have hgt : ¬ idx > 7 := by omega
    unfold PartSupported.SupportsPID PartSupported.PIDInRange NewPartSupported
      PartSupported.SetRawValue
    simp only [if_neg hlt, if_neg hgt]
    have hstart : ((idx * 32 % 256 + 256 - 32) % 256 + 1) % 256 = (idx - 1) * 32 + 1 := by
      omega
    have he : idx * 32 % 256 = idx * 32 := by omega
    have hoff : 32 * idx % 256 = idx * 32 := by omega
    rw [hstart, he, hoff]
    by_cases hA : (idx - 1) * 32 + 1 ≤ pid <;> by_cases hB : pid ≤ idx * 32 <;>
      simp [hA, hB]
    congr 1
    omega
  · decide

/-- Claim C2, witness: part 3 with only bit 31 set supports exactly its
first PID, 0x41 = 65. -/
theorem supportsPID_spec_witness :
    ((NewPartSupported 3).SetRawValue (2 ^ 31)).SupportsPID 65 = true := by
  have h := (supportsPID_spec 3 (2 ^ 31) 65 (by decide) (by decide) (by decide)).1
  rw [h]
  decide

/-- Claim C4.  Whenever the first carriage-return-separated line of the
accumulated (prompt-stripped) response buffer differs from the command
string recorded by the write, `processResult` (src/unnamed/part_000
lines 281-316) fails with the echo-mismatch error carrying the expected
and received strings, and the exchange can never succeed. -/
theorem processResult_echoMismatch (input buffer first : Str) (rest : List Str)
    (hsplit : splitChar '\r' buffer = first :: rest) (hne : first ≠ input) :
    processResult input buffer = .error (.echoMismatch input first)
    ∧ ∀ outs, processResult input buffer ≠ .ok outs := by
  constructor
  · simp [processResult, hsplit, hne]
  · intro outs
    simp [processResult, hsplit, hne]

/-- Claim C4, witness: writing `X` but reading back a buffer whose first
line is `AT` fails with the echo mismatch. -/
theorem processResult_echoMismatch_witness :
    processResult ['X'] ['A', 'T', '\r', 'O', 'K']
      = .error (.echoMismatch ['X'] ['A', 'T']) := by
  exact (processResult_echoMismatch ['X'] ['A', 'T', '\r', 'O', 'K'] ['A', 'T'] [['O', 'K']]
    (by decide) (by decide)).1

/-- Claim C5, counterexample.  `HexLitsToBytes` (src/utils.go lines
26-48) silently skips every token whose length is not exactly 2, not
only empty ones: the non-empty invalid token `xyz` does not fail the
call, which succeeds with an empty byte list. -/
theorem hexLitsToBytes_skips_long_invalid_token :
    HexLitsToBytes [['x', 'y', 'z']] = .ok []
    ∧ (['x', 'y', 'z'] : Str) ≠ []
    ∧ (['x', 'y', 'z'] : Str).length ≠ 2 := by
  decide

/-- Claim C5, amended.  `HexLitsToBytes` skips every token whose length
is not exactly 2 (empty or not), decodes the 2-character tokens in
order, and fails exactly when some 2-character token is not valid hex. -/
theorem hexLitsToBytes_spec (ts : List Str) :
    ((∃ bs, HexLitsToBytes ts = .ok bs) ↔
        ∀ t ∈ ts, t.length = 2 → (parseUintHex8 t).isSome = true)
    ∧ ((∀ t ∈ ts, t.length = 2 → (parseUintHex8 t).isSome = true) →
        HexLitsToBytes ts
          = .ok (ts.filterMap (fun t => if t.length = 2 then parseUintHex8 t else none))) := by
  induction ts with
  | nil => simp [HexLitsToBytes]
  | cons t ts ih =>
    obtain ⟨ih1, ih2⟩ := ih
    by_cases hlen : t.length = 2
    · cases hp : parseUintHex8 t with
      | none =>
        simp [HexLitsToBytes, hlen, hp]
      | some b =>
        constructor
        · constructor
          · rintro ⟨bs, hbs⟩
            rw [show HexLitsToBytes (t :: ts) = (HexLitsToBytes ts).map (fun bs => b :: bs) by
              simp [HexLitsToBytes, hlen, hp]] at hbs
            cases hh : HexLitsToBytes ts with
            | error e => rw [hh] at hbs; simp [Except.map] at hbs
            | ok bs' =>
              intro x hx
              rcases List.mem_cons.mp hx with h | h
              · subst h; intro _; simp [hp]
              · exact ih1.mp ⟨bs', hh⟩ x h
          · intro hall
            have hrest : ∀ x ∈ ts, x.length = 2 → (parseUintHex8 x).isSome = true :=
              fun x hx => hall x (List.mem_cons_of_mem t hx)
            obtain ⟨bs', hbs'⟩ := ih1.mpr hrest
            refine ⟨b :: bs', ?_⟩
            simp [HexLitsToBytes, hlen, hp, hbs', Except.map]
        · intro hall
          have hrest : ∀ x ∈ ts, x.length = 2 → (parseUintHex8 x).isSome = true :=
            fun x hx => hall x (List.mem_cons_of_mem t hx)
          simp [HexLitsToBytes, hlen, hp, ih2 hrest, Except.map, List.filterMap_cons]
    · constructor
      · rw [show HexLitsToBytes (t :: ts) = HexLitsToBytes ts by
          simp [HexLitsToBytes, hlen]]
        constructor
        · intro hex x hx
          rcases List.mem_cons.mp hx with h | h
          · subst h; intro hc; exact absurd hc hlen
          · exact ih1.mp hex x h
        · intro hall
          exact ih1.mpr (fun x hx => hall x (List.mem_cons_of_mem t hx))
      · intro hall
        have hrest : ∀ x ∈ ts, x.length = 2 → (parseUintHex8 x).isSome = true :=
          fun x hx => hall x (List.mem_cons_of_mem t hx)
        simp [HexLitsToBytes, hlen, ih2 hrest, List.filterMap_cons]

/-- Claim C5, witness: 2-character hex tokens decode in order while the
length-1 token `x` and the empty token are skipped. -/
theorem hexLitsToBytes_spec_witness :
    HexLitsToBytes [['1', 'A'], ['x'], [], ['F', '8']] = .ok [0x1A, 0xF8] := by
  have h := (hexLitsToBytes_spec [['1', 'A'], ['x'], [], ['F', '8']]).2 (by decide)
  rw [h]
  decide

/-- Claim C6, counterexample.  `Result.Validate` computes the expected
length as the Go byte addition `cmd.DataWidth() + 2`, which wraps modulo
256: for a command of data width 255 the expected length becomes 1, so a
1-byte frame `[0x00]` passes the length check — although its length is
not `dataWidth + 2 = 257` — and the call returns a mode-mismatch error
where the claim requires the length-mismatch error (checks in order,
length first). -/
theorem validate_wraps_at_dataWidth_255 :
    Result.Validate ⟨[0]⟩ { modeId := 1, parameterID := 0, dataWidth := 255, key := "" }
        = .error (.modeMismatch 0x41 0)
    ∧ ([0] : List Nat).length ≠ 255 + 2 := by
  constructor
  · decide
  · decide

/-- Claim C6, amended.  For every command whose data width is at most
253 and whose mode id is at most 0xBF (true of every command in the
library: widths 0..4, modes 0x01 and 0x04), `Result.Validate` succeeds
exactly when the frame length is `dataWidth + 2`, the first byte is
`modeId + 0x40` and the second byte is `parameterID`, and otherwise
returns the length-mismatch, mode-mismatch or parameter-mismatch error
for the first failing check, in that order; for larger widths or modes
the Go byte additions `dataWidth + 2` and `modeId + 0x40` wrap modulo
256. -/
theorem validate_spec (cmd : Cmd) (value : List Nat)
    (hdw : cmd.dataWidth ≤ 253) (hm : cmd.modeId ≤ 191) :
    (Result.Validate ⟨value⟩ cmd = .ok () ↔
        value.length = cmd.dataWidth + 2
        ∧ value.getD 0 0 = cmd.modeId + 0x40
        ∧ value.getD 1 0 = cmd.parameterID)
    ∧ (value.length ≠ cmd.dataWidth + 2 →
        Result.Validate ⟨value⟩ cmd
          = .error (.lengthMismatch (cmd.dataWidth + 2) value.length))
    ∧ (value.length = cmd.dataWidth + 2 → value.getD 0 0 ≠ cmd.modeId + 0x40 →
        Result.Validate ⟨value⟩ cmd
          = .error (.modeMismatch (cmd.modeId + 0x40) (value.getD 0 0)))
    ∧ (value.length = cmd.dataWidth + 2 → value.getD 0 0 = cmd.modeId + 0x40 →
        value.getD 1 0 ≠ cmd.parameterID →
        Result.Validate ⟨value⟩ cmd
          = .error (.parameterMismatch cmd.parameterID (value.getD 1 0))) := by
  have hexp : (cmd.dataWidth + 2) % 256 = cmd.dataWidth + 2 := Nat.mod_eq_of_lt (by omega)
  have hmode : (cmd.modeId + 0x40) % 256 = cmd.modeId + 0x40 := Nat.mod_eq_of_lt (by omega)
  rcases value with _ | ⟨a, _ | ⟨b, t⟩⟩
  · simp [Result.Validate, hexp]
  · simp [Result.Validate, hexp]
  · by_cases hlen : t.length + 2 = cmd.dataWidth + 2
    · by_cases hv0 : a = cmd.modeId + 0x40 <;> by_cases hv1 : b = cmd.parameterID <;>
        simp [Result.Validate, hexp, hmode, hlen, hv0, hv1]
    · simp [Result.Validate, hexp, hmode, hlen]

/-- Claim C6, witness: the engine-RPM response frame `41 0C FF B2`
validates successfully against a mode-1, PID-0x0C, width-2 command. -/
theorem validate_spec_witness :
    Result.Validate ⟨[0x41, 0x0C, 0xFF, 0xB2]⟩
        { modeId := 1, parameterID := 12, dataWidth := 2, key := "engine_rpm" } = .ok () := by
  have h := (validate_spec { modeId := 1, parameterID := 12, dataWidth := 2, key := "engine_rpm" }
    [0x41, 0x0C, 0xFF, 0xB2] (by decide) (by decide)).1
  exact h.mpr (by decide)

/-- Claim C7.  `Device.RunOBDCommand` (src/device.go lines 334-364)
returns the original command alongside the error on every failing step
— transport failure, parse error, validation error, or a payload decode
whose `SetValue` (like every implementation in the catalog, e.g.
`fuelTrim.SetValue`) leaves the value unchanged when it errors — so the
command and its value field are exactly what they were before the
call. -/
theorem runOBDCommand_error_preserves (α : Type) (setValue : α → Result → α × Option String)
    (hset : ∀ v r, (setValue v r).2.isSome = true → (setValue v r).1 = v)
    (raw : RawRes) (cmd : ObdCmd α) (e : RunError)
    (herr : (RunOBDCommand setValue raw cmd).2 = some e) :
    (RunOBDCommand setValue raw cmd).1 = cmd := by
  unfold RunOBDCommand at herr ⊢
  by_cases hf : raw.failed = true
  · rw [if_pos hf]
  · rw [if_neg hf] at herr ⊢
    cases hp : parseOBDResponse cmd.base raw.outputs with
    | error pe => simp [hp]
    | ok r? =>
      cases r? with
      | none => simp [hp] at herr
      | some result =>
        simp only [hp] at herr ⊢
        cases hv : result.Validate cmd.base with
        | error ve => simp [hv]
        | ok u =>
          cases u
          simp only [hv] at herr ⊢
          rcases hs : setValue cmd.value result with ⟨v, err⟩
          cases err with
          | none => simp [hs] at herr
          | some msg =>
            simp only [hs]
            have hval := hset cmd.value result (by rw [hs]; rfl)
            rw [hs] at hval
            simp only at hval
            rw [hval]

/-- Claim C7, witness: a failed transport exchange leaves a fuel-trim
command (value 0) completely unchanged. -/
theorem runOBDCommand_error_preserves_witness :
    (RunOBDCommand fuelTrimSetValue { failed := true, outputs := [] }
        { base := { modeId := 1, parameterID := 6, dataWidth := 1,
                    key := "short_term_fuel_trim_bank1" },
          value := (0 : ℚ) }).1
      = { base := { modeId := 1, parameterID := 6, dataWidth := 1,
                    key := "short_term_fuel_trim_bank1" },
          value := (0 : ℚ) } := by
  exact runOBDCommand_error_preserves ℚ fuelTrimSetValue fuelTrimSetValue_errorPreserves
    { failed := true, outputs := [] } _ .transport rfl

/-- Claim C9.  `BytesToUint64` (src/utils.go lines 8-24) reassembles any
byte sequence of length at most 8 big-endian (most significant byte
first, no sign extension) and errors on every longer sequence. -/
theorem bytesToUint64_spec (l : List Nat) (h : ∀ b ∈ l, b < 256) :
    (l.length ≤ 8 → BytesToUint64 l = .ok (beVal l))
    ∧ (l.length > 8 → BytesToUint64 l = .error "Got more than 8 bytes") := by
  constructor
  · intro hl
    rw [BytesToUint64, if_neg (by omega), uintLoop_be l h hl]
  · intro hl
    rw [BytesToUint64, if_pos hl]

/-- Claim C9, witness: `[0x1A, 0xF8]` reassembles to 6904 and `[0x7B]`
to 123. -/
theorem bytesToUint64_spec_witness :
    BytesToUint64 [0x1A, 0xF8] = .ok 6904 ∧ BytesToUint64 [0x7B] = .ok 123 := by
  constructor
  · have h := (bytesToUint64_spec [0x1A, 0xF8] (by decide)).1 (by decide)
    rw [h]
    decide
  · have h := (bytesToUint64_spec [0x7B] (by decide)).1 (by decide)
    rw [h]
    decide

end Elmobd
